import Mathlib

/-!
Shallow embedding of the reports_mvp core (src/utils/data_utils.py,
src/models/data_models.py, src/utils/database.py) and verification of the
frozen claims about it.

Python floats are modelled as rationals (ℚ) plus an explicit NaN marker;
Python ints as ℤ; Python dict rows as ordered association lists over a
universal value type `PyVal`.  Fallible Python code (code that can raise)
is embedded in `Except String`.
-/

/-- A Python value as it occurs in the loosely typed row dictionaries. -/
inductive PyVal where
  | none : PyVal
  | int : ℤ → PyVal
  | float : ℚ → PyVal
  | nan : PyVal
  | str : String → PyVal
  | bool : Bool → PyVal
deriving DecidableEq, Repr

/-- A Python float: either a finite value (modelled exactly as a rational)
or NaN.  NaN is absorbing for arithmetic. -/
inductive PyFloat where
  | num : ℚ → PyFloat
  | nan : PyFloat
deriving DecidableEq, Repr

def PyFloat.add : PyFloat → PyFloat → PyFloat
  | .num a, .num b => .num (a + b)
  | _, _ => .nan

def PyFloat.mul : PyFloat → PyFloat → PyFloat
  | .num a, .num b => .num (a * b)
  | _, _ => .nan

/-- Division of a Python float by a nonzero rational constant. -/
def PyFloat.divC (x : PyFloat) (c : ℚ) : PyFloat :=
  match x with
  | .num a => .num (a / c)
  | .nan => .nan

/-- A Python dict row: ordered association list from string keys to values. -/
abbrev Row : Type := List (String × PyVal)

/-- `row.get(k)` / `row[k]` lookup: first binding of the key. -/
def rget : Row → String → Option PyVal
  | [], _ => none
  | (k1, v) :: rest, k => if k1 = k then some v else rget rest k

/-- `row[k] = v` dict assignment: replace in place, else append at the end
(CPython dicts preserve insertion order). -/
def rset : Row → String → PyVal → Row
  | [], k, v => [(k, v)]
  | (k1, v1) :: rest, k, v =>
      if k1 = k then (k, v) :: rest else (k1, v1) :: rset rest k v

/-- Python truthiness `bool(v)` of a value. -/
def pyTruthy : PyVal → Bool
  | .none => false
  | .int n => n ≠ 0
  | .float q => q ≠ 0
  | .nan => true
  | .str s => s ≠ ""
  | .bool b => b

/-- `bool(row.get(k))`: a missing key (Python `None`) is falsy. -/
def truthyOpt : Option PyVal → Bool
  | Option.none => false
  | some v => pyTruthy v

/-- Python `str(v)` as used in f-string interpolation.  The repr of finite
floats is abstracted as the rational's string; no claim depends on it. -/
def pyStr : PyVal → String
  | .none => "None"
  | .int n => toString n
  | .float q => toString q
  | .nan => "nan"
  | .str s => s
  | .bool b => if b then "True" else "False"

/-- Python whitespace as recognised by `str.strip()` / numeric parsing. -/
def isPySpace (c : Char) : Bool :=
  c = ' ' ∨ c = '\t' ∨ c = '\n' ∨ c = '\r' ∨ c = '\x0b' ∨ c = '\x0c'

/-- Strip leading and trailing Python whitespace from a character list. -/
def pyStrip (l : List Char) : List Char :=
  ((l.dropWhile isPySpace).reverse.dropWhile isPySpace).reverse

/-- Digits of a decimal numeral folded to a natural number. -/
def digitsToNat (l : List Char) : ℕ :=
  l.foldl (fun n c => n * 10 + (c.toNat - 48)) 0

/-- Sign-and-digits split for Python numeric literals. -/
def splitSign : List Char → (ℤ × List Char)
  | '-' :: rest => (-1, rest)
  | '+' :: rest => (1, rest)
  | l => (1, l)

/-- Python `int(s)` on a string: strip whitespace, optional sign, decimal
digits; anything else raises (returns `none` here).  Underscore separators
and non-ASCII digits are not modelled; no input in the claims uses them. -/
def pyParseInt (s : String) : Option ℤ :=
  let t := pyStrip s.data
  let (sign, core) := splitSign t
  if core ≠ [] ∧ core.all Char.isDigit then some (sign * digitsToNat core)
  else Option.none

/-- Python `float(s)` on a string: optional sign, digits with an optional
fractional part; "nan" gives NaN; anything else raises (`none`). -/
def pyParseFloat (s : String) : Option PyFloat :=
  let t := pyStrip s.data
  let (sign, core) := splitSign t
  if core = "nan".data then some PyFloat.nan
  else
    let w := core.takeWhile (· ≠ '.')
    let rest := core.dropWhile (· ≠ '.')
    let value (fr : List Char) : ℚ :=
      (sign : ℚ) * ((digitsToNat w : ℚ) + (digitsToNat fr : ℚ) / (10 : ℚ) ^ fr.length)
    match rest with
    | [] =>
        if w ≠ [] ∧ w.all Char.isDigit then some (.num (value []))
        else Option.none
    | '.' :: fr =>
        if (w ≠ [] ∨ fr ≠ []) ∧ w.all Char.isDigit ∧ fr.all Char.isDigit ∧
            fr.all (· ≠ '.') then
          some (.num (value fr))
        else Option.none
    | _ => Option.none

/-- Python `int(x)` truncation of a rational toward zero. -/
def ratTrunc (q : ℚ) : ℤ := if 0 ≤ q then ⌊q⌋ else -⌊-q⌋

/-- src/utils/data_utils.py `to_int_safe`: safe conversion to int handling
None / "" / NaN; any exception (unparseable string) yields the default.
The argument is `Option PyVal` so that a missing dict key (Python `None`
from `.get`) and an explicit `None` value coincide, as in Python. -/
def to_int_safe (value : Option PyVal) (default : ℤ) : ℤ :=
  match value with
  | Option.none => default
  | some .none => default
  | some .nan => default
  | some (.int n) => n
  | some (.float q) => ratTrunc q
  | some (.str s) =>
      if pyStrip s.data = [] then default
      else match pyParseInt s with
        | some n => n
        | Option.none => default
  | some (.bool b) => if b then 1 else 0

/-- Python 3 `round(x)` on a float: round half to even (banker's rounding),
returning an integer. -/
def pyRound (q : ℚ) : ℤ :=
  let f := ⌊q⌋
  let r := q - f
  if r < 1/2 then f
  else if 1/2 < r then f + 1
  else if f % 2 = 0 then f else f + 1

/-- Python numeric coercion of a value used as an arithmetic operand
(`x / 12`, `acc + x`): ints, floats and bools are numbers; strings and
None raise TypeError. -/
def pyNum : PyVal → Except String PyFloat
  | .int n => .ok (.num n)
  | .float q => .ok (.num q)
  | .nan => .ok .nan
  | .bool b => .ok (.num (if b then 1 else 0))
  | .str _ => .error "TypeError: unsupported operand type str"
  | .none => .error "TypeError: unsupported operand type NoneType"

/-- Python `float(x)` conversion: like `pyNum` but also parses strings
(raising ValueError on non-numeric ones). -/
def pyFloatFn : PyVal → Except String PyFloat
  | .int n => .ok (.num n)
  | .float q => .ok (.num q)
  | .nan => .ok .nan
  | .bool b => .ok (.num (if b then 1 else 0))
  | .str s =>
      match pyParseFloat s with
      | some x => .ok x
      | Option.none => .error "ValueError: could not convert string to float"
  | .none => .error "TypeError: float() argument must be a string or a real number"

/-- One SAP catalog entry as held in the in-memory `sap_by_code` mapping
(columns of `fetch_sap_catalog` that `normalize_task_row` reads). -/
structure CatalogItem where
  product_name : String
  norm_a3_per_employee : Option ℚ
  norm_a4_per_employee : Option ℚ
deriving DecidableEq, Repr

/-- The `sap_by_code` dict: codes (strings) to catalog items. -/
abbrev Catalog : Type := List (String × CatalogItem)

def lookupCat : Catalog → String → Option CatalogItem
  | [], _ => Option.none
  | (c, it) :: rest, code => if c = code then some it else lookupCat rest code

/-- `sap_by_code.get(code)` where `code` is whatever the row holds: only a
string key can match (catalog keys are the SAP code strings). -/
def rowItem (row : Row) (sap_by_code : Catalog) : Option CatalogItem :=
  match rget row "sap_code" with
  | some (.str s) => lookupCat sap_by_code s
  | _ => Option.none

/-- Line 42 of data_utils.py: `int(round(base_norm * (1 - disc/100)))`. -/
def normWithDiscount (base_norm : ℚ) (disc : ℤ) : ℤ :=
  pyRound (base_norm * (1 - (disc : ℚ) / 100))

/-- Lines 26-34 of data_utils.py, the norm picked per line from a resolved
catalog item (an absent norm resolves to 0). -/
def normalizeBaseNorm (line : String) (it : CatalogItem) : ℚ :=
  (if line = "A3" then it.norm_a3_per_employee else it.norm_a4_per_employee).getD 0

/-- The base norm `normalize_task_row` ends up using for a row: the
per-line catalog norm when the code resolves, else 0. -/
def resolvedBase (line : String) (row : Row) (sap_by_code : Catalog) : ℚ :=
  match rowItem row sap_by_code with
  | some it => normalizeBaseNorm line it
  | Option.none => 0

/-- src/utils/data_utils.py `normalize_task_row`: fill the computed fields
of one task row. -/
def normalize_task_row (line : String) (row : Row) (sap_by_code : Catalog) : Row :=
  let normalized : Row := row
  let code := rget normalized "sap_code"
  let item :=
    match code with
    | some (.str s) => lookupCat sap_by_code s
    | _ => Option.none
  let normalized :=
    match item with
    | some it =>
        let normalized := rset normalized "product_name" (.str it.product_name)
        let base_norm :=
          if line = "A3" then it.norm_a3_per_employee else it.norm_a4_per_employee
        match base_norm with
        | some b => rset normalized "norm_per_employee" (.float b)
        | Option.none =>
            let normalized := rset normalized "norm_per_employee" (.int 0)
            rset normalized "product_name"
              (.str (it.product_name ++ " (не производится на " ++ line ++ ")"))
    | Option.none =>
        let normalized := rset normalized "product_name" (.str "")
        rset normalized "norm_per_employee" (.int 0)
  let disc := to_int_safe (rget normalized "discount_percent") 0
  let base_norm : ℚ :=
    match rget normalized "norm_per_employee" with
    | some (.float q) => q
    | some (.int n) => (n : ℚ)
    | _ => 0
  let normalized := rset normalized "norm_with_discount" (.int (normWithDiscount base_norm disc))
  let normalized := rset normalized "qty_made" (.int (to_int_safe (rget normalized "qty_made") 0))
  let normalized := rset normalized "count_by_norm" (.bool (truthyOpt (rget normalized "count_by_norm")))
  let normalized := rset normalized "discount_percent" (.int disc)
  let normalized := rset normalized "sap_code"
    (match code with
     | some v => if pyTruthy v then v else .str ""
     | Option.none => .str "")
  normalized

/-- Accumulator of `calculate_line_statistics`: the `line_counts` and
`total_hours` dicts (hours start as Python floats `0.0`). -/
structure LineAcc where
  countA3 : ℤ
  countA4 : ℤ
  hoursA3 : PyFloat
  hoursA4 : PyFloat
deriving DecidableEq, Repr

/-- Result dict of `calculate_line_statistics`. -/
structure LineStats where
  countA3 : ℤ
  countA4 : ℤ
  hoursA3 : PyFloat
  hoursA4 : PyFloat
  total_count : ℤ
  total_hours : PyFloat
deriving DecidableEq, Repr

/-- One iteration of the loop in `calculate_line_statistics`
(data_utils.py lines 93-99).  `float(work_time)` can raise, hence
`Except`. -/
def lineStatsStep (acc : LineAcc) (emp : Row) : Except String LineAcc :=
  let line := (rget emp "line").getD (.str "A3")
  if line = .str "A3" then
    let work_time := (rget emp "work_time").getD (.float 0)
    if work_time = .none then .ok { acc with countA3 := acc.countA3 + 1 }
    else do
      let w ← pyFloatFn work_time
      .ok { acc with countA3 := acc.countA3 + 1, hoursA3 := acc.hoursA3.add w }
  else if line = .str "A4" then
    let work_time := (rget emp "work_time").getD (.float 0)
    if work_time = .none then .ok { acc with countA4 := acc.countA4 + 1 }
    else do
      let w ← pyFloatFn work_time
      .ok { acc with countA4 := acc.countA4 + 1, hoursA4 := acc.hoursA4.add w }
  else .ok acc

/-- src/utils/data_utils.py `calculate_line_statistics`. -/
def calculate_line_statistics (line_emps : List Row) : Except String LineStats := do
  let acc ← line_emps.foldlM lineStatsStep ⟨0, 0, .num 0, .num 0⟩
  .ok ⟨acc.countA3, acc.countA4, acc.hoursA3, acc.hoursA4,
       acc.countA3 + acc.countA4, acc.hoursA3.add acc.hoursA4⟩

/-- The `line_hours` dict passed to `calculate_product_summary`; every call
site builds it with both keys `"A3"` and `"A4"` present. -/
structure LineHours where
  a3 : ℚ
  a4 : ℚ
deriving DecidableEq, Repr

/-- One value of the `product_summary` dict: per-line norm accumulators and
per-line quantity accumulators, all starting at integer 0. -/
structure Cells where
  a3 : PyFloat
  a4 : PyFloat
  qtyA3 : PyFloat
  qtyA4 : PyFloat
deriving DecidableEq, Repr

def Cells.zero : Cells := ⟨.num 0, .num 0, .num 0, .num 0⟩

/-- The `product_summary` dict: insertion-ordered association list. -/
abbrev PSummary : Type := List (String × Cells)

def psContains (ps : PSummary) (k : String) : Bool := ps.any (·.1 = k)

def psModify (ps : PSummary) (k : String) (f : Cells → Cells) : PSummary :=
  ps.map (fun e => if e.1 = k then (e.1, f e.2) else e)

/-- Body of the task loop of `calculate_product_summary`
(data_utils.py lines 113-141) for one task on one line. -/
def procTask (line_hours : LineHours) (isA3 : Bool) (ps : PSummary) (task : Row) :
    Except String PSummary :=
  let sap_code := (rget task "sap_code").getD (.str "")
  if pyTruthy sap_code = false then .ok ps
  else
    let product_name := (rget task "product_name").getD (.str "")
    let norm_with_discount := (rget task "norm_with_discount").getD (.int 0)
    let count_by_norm := (rget task "count_by_norm").getD (.bool true)
    let key := pyStr sap_code ++ " - " ++ pyStr product_name
    let ps := if psContains ps key then ps else ps ++ [(key, Cells.zero)]
    let hrs := if isA3 then line_hours.a3 else line_hours.a4
    do
      let ps ←
        if pyTruthy count_by_norm = false then
          if hrs > 0 then do
            let n ← pyNum norm_with_discount
            .ok (psModify ps key (fun c =>
              if isA3 then { c with a3 := c.a3.add ((n.divC 12).mul (.num hrs)) }
              else { c with a4 := c.a4.add ((n.divC 12).mul (.num hrs)) }))
          else .ok ps
        else do
          let q ← pyNum ((rget task "qty_made").getD (.int 0))
          .ok (psModify ps key (fun c =>
            if isA3 then { c with a3 := c.a3.add q } else { c with a4 := c.a4.add q }))
      let q ← pyNum ((rget task "qty_made").getD (.int 0))
      .ok (psModify ps key (fun c =>
        if isA3 then { c with qtyA3 := c.qtyA3.add q }
        else { c with qtyA4 := c.qtyA4.add q }))

/-- The `product_summary` dict after both per-line loops of
`calculate_product_summary` (its pre-rounding state). -/
def productSummaryMap (tasks_A3 tasks_A4 : List Row) (line_hours : LineHours) :
    Except String PSummary := do
  let ps ← tasks_A3.foldlM (procTask line_hours true) []
  tasks_A4.foldlM (procTask line_hours false) ps

/-- One output row of `calculate_product_summary`. -/
structure ProductSummaryRow where
  izdelie : String
  a3_norm : ℤ
  a4_norm : ℤ
  total_norm : ℤ
  a3_qty : ℤ
  a4_qty : ℤ
  total_qty : ℤ
deriving DecidableEq, Repr

/-- `int(round(x))` on an accumulator cell; `round` raises on NaN. -/
def pfRound : PyFloat → Except String ℤ
  | .num q => .ok (pyRound q)
  | .nan => .error "ValueError: cannot convert float NaN to integer"

/-- `int(x)` on an accumulator cell; raises on NaN. -/
def pfTrunc : PyFloat → Except String ℤ
  | .num q => .ok (ratTrunc q)
  | .nan => .error "ValueError: cannot convert float NaN to integer"

/-- Output-stage conversion of `calculate_product_summary`
(data_utils.py lines 144-156) for one product. -/
def renderSummaryRow (e : String × Cells) : Except String ProductSummaryRow := do
  let a3 ← pfRound e.2.a3
  let a4 ← pfRound e.2.a4
  let tot ← pfRound (e.2.a3.add e.2.a4)
  let q3 ← pfTrunc e.2.qtyA3
  let q4 ← pfTrunc e.2.qtyA4
  let tq ← pfTrunc (e.2.qtyA3.add e.2.qtyA4)
  .ok ⟨e.1, a3, a4, tot, q3, q4, tq⟩

/-- src/utils/data_utils.py `calculate_product_summary`. -/
def calculate_product_summary (tasks_A3 tasks_A4 : List Row) (line_hours : LineHours) :
    Except String (List ProductSummaryRow) := do
  let ps ← productSummaryMap tasks_A3 tasks_A4 line_hours
  ps.mapM renderSummaryRow

/-- src/models/data_models.py `TaskModel.v_line` (and the identical
`LineEmployeeModel.v_line`): reject a line outside A3/A4. -/
def v_line (v : String) : Except String String :=
  if v ≠ "A3" ∧ v ≠ "A4" then .error "line must be A3 or A4" else .ok v

/-- src/models/data_models.py `TaskModel.v_discount`: `None` becomes 0,
values outside [0,100] are rejected.  Pydantic has already coerced the
field to `int` when the validator runs, hence the `Option ℤ` input. -/
def v_discount (v : Option ℤ) : Except String ℤ :=
  match v with
  | Option.none => .ok 0
  | some n => if ¬ (0 ≤ n ∧ n ≤ 100) then .error "discount_percent must be 0..100" else .ok n

/-- src/models/data_models.py `SupportRoleModel.v_role`. -/
def v_role (v : String) : Except String String :=
  if v ≠ "senior" ∧ v ≠ "repair" then .error "role must be senior or repair" else .ok v

/-- Field values of a `TaskModel` candidate record (after pydantic's type
coercion of the declared field types). -/
structure TaskInput where
  line : String
  sap_id : ℤ
  qty_made : ℤ
  count_by_norm : Bool
  discount_percent : Option ℤ
deriving DecidableEq, Repr

/-- A validated task record; also the shape of a `report_tasks` row. -/
structure TaskRec where
  line : String
  sap_id : ℤ
  qty_made : ℤ
  count_by_norm : Bool
  discount_percent : ℤ
deriving DecidableEq, Repr

/-- Constructing a `TaskModel`: run the field validators. -/
def validateTask (t : TaskInput) : Except String TaskRec := do
  let l ← v_line t.line
  let d ← v_discount t.discount_percent
  .ok ⟨l, t.sap_id, t.qty_made, t.count_by_norm, d⟩

/-- A `LineEmployeeModel` record; also the shape of a
`report_line_employees` row. -/
structure LineEmpRec where
  employee_id : ℤ
  fio : String
  work_time : ℚ
  line : String
deriving DecidableEq, Repr

/-- Constructing a `LineEmployeeModel`: validate the line. -/
def validateLineEmployee (e : LineEmpRec) : Except String LineEmpRec := do
  let l ← v_line e.line
  .ok { e with line := l }

/-- A `SupportRoleModel` record; also the shape of a
`report_support_roles` row. -/
structure SupportRec where
  role : String
  employee_id : ℤ
  fio : String
  work_time : ℚ
deriving DecidableEq, Repr

/-- Constructing a `SupportRoleModel`: validate the role. -/
def validateSupportRole (s : SupportRec) : Except String SupportRec := do
  let r ← v_role s.role
  .ok { s with role := r }

def isOkE {α : Type} : Except String α → Bool
  | .ok _ => true
  | .error _ => false

/-- A `reports` table row. -/
structure ReportHeader where
  id : ℕ
  site_id : ℤ
  report_date : ℤ
deriving DecidableEq, Repr

/-- A `sap_catalog` table row (columns used by `get_report`). -/
structure SapRec where
  id : ℤ
  sap_code : String
  product_name : String
  norm_a3_per_employee : Option ℚ
  norm_a4_per_employee : Option ℚ
deriving DecidableEq, Repr

/-- Modelled from the spec: the relational store behind
src/utils/database.py.  The SQL DDL (table definitions) is not part of the
source tree; tables are modelled from spec §3/§4.5 as insertion-ordered
lists, child rows carry their report id and (as in the spec's data model)
no synthetic ids of their own. -/
structure DB where
  reports : List ReportHeader
  report_tasks : List (ℕ × TaskRec)
  report_line_employees : List (ℕ × LineEmpRec)
  report_support_roles : List (ℕ × SupportRec)
  employees : List (ℤ × String)
  sap_catalog : List SapRec
  next_report_id : ℕ
deriving DecidableEq, Repr

/-- `INSERT INTO employees ... ON CONFLICT (id) DO UPDATE SET fio=...`. -/
def upsertEmployee (emps : List (ℤ × String)) (eid : ℤ) (fio : String) :
    List (ℤ × String) :=
  if emps.any (·.1 = eid) then
    emps.map (fun e => if e.1 = eid then (e.1, fio) else e)
  else emps ++ [(eid, fio)]

/-- `SELECT id FROM reports WHERE site_id=:s AND report_date=:d`. -/
def findHeader (reports : List ReportHeader) (site : ℤ) (d : ℤ) :
    Option ReportHeader :=
  reports.find? (fun h : ReportHeader => h.site_id == site && h.report_date == d)

/-- `ON CONFLICT (site_id, report_date) DO UPDATE SET report_date =
EXCLUDED.report_date` applied to the conflicting report id. -/
def setReportDate (reports : List ReportHeader) (rid : ℕ) (d : ℤ) :
    List ReportHeader :=
  reports.map (fun h => if h.id = rid then { h with report_date := d } else h)

/-- src/utils/database.py `upsert_report`: upsert the header, delete all
child rows of the report, reinsert the supplied children, refreshing the
`employees` catalog from the line-employee and support rows. -/
def upsert_report (site : ℤ) (d : ℤ) (tasks : List TaskRec)
    (line_emps : List LineEmpRec) (supports : List SupportRec) (db : DB) : DB :=
  let (rid, reports2, next2) : ℕ × List ReportHeader × ℕ :=
    match findHeader db.reports site d with
    | some h => (h.id, setReportDate db.reports h.id d, db.next_report_id)
    | Option.none =>
        (db.next_report_id, db.reports ++ [⟨db.next_report_id, site, d⟩],
         db.next_report_id + 1)
  { reports := reports2
    report_tasks :=
      db.report_tasks.filter (fun e => e.1 ≠ rid) ++ tasks.map (fun t => (rid, t))
    report_line_employees :=
      db.report_line_employees.filter (fun e => e.1 ≠ rid) ++
        line_emps.map (fun le => (rid, le))
    report_support_roles :=
      db.report_support_roles.filter (fun e => e.1 ≠ rid) ++
        supports.map (fun s => (rid, s))
    employees :=
      supports.foldl (fun acc s => upsertEmployee acc s.employee_id s.fio)
        (line_emps.foldl (fun acc le => upsertEmployee acc le.employee_id le.fio)
          db.employees)
    sap_catalog := db.sap_catalog
    next_report_id := next2 }

/-- Stable insertion into a sorted list: the new element goes after all
existing elements that compare `le` to it. -/
def stableInsert {α : Type} (le : α → α → Bool) (a : α) : List α → List α
  | [] => [a]
  | b :: l => if le b a then b :: stableInsert le a l else a :: b :: l

/-- Stable sort (insertion sort, processing elements left to right).
Models SQL `ORDER BY`: rows are stored in insertion order (ascending
serial id), so a stable sort by the ORDER BY key realises
`ORDER BY key, id`. -/
def stableSortBy {α : Type} (le : α → α → Bool) (l : List α) : List α :=
  l.foldl (fun acc a => stableInsert le a acc) []

/-- PostgreSQL `ROUND(numeric)`: round half away from zero. -/
def sqlRound (q : ℚ) : ℤ := if 0 ≤ q then ⌊q + 1/2⌋ else -⌊-q + 1/2⌋

/-- The `norm_per_employee` CASE expression of `get_report`'s task query
(database.py lines 106-110): for line A3 the catalog norm goes through
`ROUND(norm_a3_per_employee * 0.7)::int`, for A4 it is read directly;
a NULL catalog norm yields NULL. -/
def sqlNormPerEmployee (line : String) (sc : SapRec) : Option ℚ :=
  if line = "A3" then
    sc.norm_a3_per_employee.map (fun n => ((sqlRound (n * (7/10)) : ℤ) : ℚ))
  else if line = "A4" then sc.norm_a4_per_employee
  else some 0

/-- The `norm_with_discount` CASE expression (database.py lines 112-116). -/
def sqlNormWithDiscount (line : String) (disc : ℤ) (sc : SapRec) : Option ℤ :=
  if line = "A3" then
    sc.norm_a3_per_employee.map (fun n => sqlRound (n * (7/10) * (1 - (disc : ℚ) / 100)))
  else if line = "A4" then
    sc.norm_a4_per_employee.map (fun n => sqlRound (n * (1 - (disc : ℚ) / 100)))
  else some 0

/-- A task row of the `get_report` result: `report_tasks` joined with
`sap_catalog` and the two recomputed norm fields. -/
structure JoinedTask where
  line : String
  sap_id : ℤ
  sap_code : String
  product_name : String
  norm_per_employee : Option ℚ
  qty_made : ℤ
  count_by_norm : Bool
  discount_percent : ℤ
  norm_with_discount : Option ℤ
deriving DecidableEq, Repr

/-- `JOIN sap_catalog sc ON sc.id = t.sap_id` for one task row (inner
join against the unique catalog id). -/
def joinTask (cat : List SapRec) (t : TaskRec) : Option JoinedTask :=
  (cat.find? (fun sc => sc.id == t.sap_id)).map (fun sc =>
    ⟨t.line, t.sap_id, sc.sap_code, sc.product_name,
     sqlNormPerEmployee t.line sc, t.qty_made, t.count_by_norm,
     t.discount_percent, sqlNormWithDiscount t.line t.discount_percent sc⟩)

/-- The dict returned by `get_report`. -/
structure ReportData where
  id : ℕ
  tasks : List JoinedTask
  line_emps : List LineEmpRec
  supports : List SupportRec
deriving DecidableEq, Repr

/-- src/utils/database.py `get_report`: find the report header, then read
the three child tables (tasks joined against the catalog, with the norm
fields recomputed by the CASE expressions). -/
def get_report (site : ℤ) (d : ℤ) (db : DB) : Option ReportData :=
  match findHeader db.reports site d with
  | Option.none => Option.none
  | some h =>
      some ⟨h.id,
        stableSortBy (fun a b => a.line ≤ b.line)
          (((db.report_tasks.filter (fun e => e.1 = h.id)).map (·.2)).filterMap
            (joinTask db.sap_catalog)),
        (db.report_line_employees.filter (fun e => e.1 = h.id)).map (·.2),
        stableSortBy (fun a b => a.role ≤ b.role)
          ((db.report_support_roles.filter (fun e => e.1 = h.id)).map (·.2))⟩

def c2db : DB :=
  { reports := [⟨1, 5, 10⟩]
    report_tasks := [(1, ⟨"A3", 1, 7, true, 0⟩)]
    report_line_employees := []
    report_support_roles := []
    employees := []
    sap_catalog := [⟨1, "X", "P1", some 100, some 120⟩]
    next_report_id := 2 }

def psEnsure (ps : PSummary) (k : String) : PSummary :=
  if psContains ps k then ps else ps ++ [(k, Cells.zero)]

def psCells (ps : PSummary) (k : String) : Cells :=
  ((ps.find? (fun e => e.1 = k)).map (fun e => e.2)).getD Cells.zero

def taskKey (t : Row) : String :=
  pyStr ((rget t "sap_code").getD (.str "")) ++ " - " ++
    pyStr ((rget t "product_name").getD (.str ""))

def taskQtyNum (t : Row) : ℚ :=
  match pyNum ((rget t "qty_made").getD (.int 0)) with
  | .ok (.num q) => q
  | _ => 0

def WellCounted (t : Row) : Prop :=
  pyTruthy ((rget t "sap_code").getD (.str "")) = true ∧
  pyTruthy ((rget t "count_by_norm").getD (.bool true)) = true ∧
  ∃ q : ℚ, pyNum ((rget t "qty_made").getD (.int 0)) = .ok (.num q)

def sumQty (k : String) (ts : List Row) : ℚ :=
  ((ts.filter (fun t => taskKey t = k)).map taskQtyNum).sum

def Cells.bump (isA3 : Bool) (q : ℚ) (c : Cells) : Cells :=
  if isA3 then { c with a3 := c.a3.add (.num q), qtyA3 := c.qtyA3.add (.num q) }
  else { c with a4 := c.a4.add (.num q), qtyA4 := c.qtyA4.add (.num q) }

def psBump (ps : PSummary) (k : String) (isA3 : Bool) (q : ℚ) : PSummary :=
  psModify (psEnsure ps k) k (Cells.bump isA3 q)

def psBumpList (isA3 : Bool) (ps : PSummary) (ts : List Row) : PSummary :=
  ts.foldl (fun acc t => psBump acc (taskKey t) isA3 (taskQtyNum t)) ps

def NotStrField (o : Option PyVal) : Prop :=
  match o with
  | some (.str _) => False
  | _ => True

def SafeNumField (o : Option PyVal) : Prop :=
  match o with
  | some (.str _) => False
  | some .none => False
  | some .nan => False
  | _ => True

/-- All four accumulator cells of a product hold finite floats. -/
def CellsNum (c : Cells) : Prop :=
  (∃ x, c.a3 = PyFloat.num x) ∧ (∃ x, c.a4 = PyFloat.num x) ∧
  (∃ x, c.qtyA3 = PyFloat.num x) ∧ (∃ x, c.qtyA4 = PyFloat.num x)

theorem rget_rset (r : Row) (k k2 : String) (v : PyVal) :
    rget (rset r k v) k2 = if k = k2 then some v else rget r k2 := by
  induction r with
  | nil => simp [rset, rget]
  | cons hd tl ih =>
      obtain ⟨k1, v1⟩ := hd
      by_cases h : k1 = k
      · subst h
        by_cases h2 : k1 = k2 <;> simp [rset, rget, h2]
      · by_cases h2 : k1 = k2
        · subst h2
          simp [rset, rget, h, ih, Ne.symm h]
        · simp [rset, rget, h, h2, ih]

theorem normalize_task_row_fields (line : String) (row : Row) (cat : Catalog) :
    rget (normalize_task_row line row cat) "discount_percent"
        = some (.int (to_int_safe (rget row "discount_percent") 0)) ∧
    rget (normalize_task_row line row cat) "qty_made"
        = some (.int (to_int_safe (rget row "qty_made") 0)) ∧
    rget (normalize_task_row line row cat) "count_by_norm"
        = some (.bool (truthyOpt (rget row "count_by_norm"))) ∧
    rget (normalize_task_row line row cat) "norm_with_discount"
        = some (.int (normWithDiscount (resolvedBase line row cat)
            (to_int_safe (rget row "discount_percent") 0))) := by
  simp only [normalize_task_row, resolvedBase, rowItem, normalizeBaseNorm]
  cases hcode : rget row "sap_code" with
  | none => simp [rget_rset]
  | some val =>
      cases val <;> simp [rget_rset]
      case str s =>
        cases hlook : lookupCat cat s with
        | none => simp [rget_rset]
        | some it =>
            cases hbn : (if line = "A3" then it.norm_a3_per_employee
                else it.norm_a4_per_employee) with
            | none => simp [rget_rset, hbn]
            | some b => simp [rget_rset, hbn]

theorem pyRound_intCast (m : ℤ) : pyRound ((m : ℚ)) = m := by
  simp [pyRound]

/-- C1 (amended): for every base norm b ≥ 0 and discount d in [0,100], the norm-with-discount of `normalize_task_row` (line 42 of data_utils.py, `normWithDiscount`) equals the Python banker-rounding of b*(1-d/100); it equals b when d = 0 and b is integral, and equals 0 when d = 100. -/
theorem c1_amended (b : ℚ) (d : ℤ) (hb : 0 ≤ b) (h0 : 0 ≤ d) (h100 : d ≤ 100) :
    normWithDiscount b d = pyRound (b * (1 - (d : ℚ) / 100)) ∧
    (∀ m : ℤ, b = (m : ℚ) → normWithDiscount b 0 = m) ∧
    normWithDiscount b 100 = 0 := by
  refine ⟨rfl, ?_, ?_⟩
  · rintro m rfl
    simpa [normWithDiscount] using pyRound_intCast m
  · have : b * (1 - (100 : ℚ) / 100) = ((0 : ℤ) : ℚ) := by norm_num
    simp only [normWithDiscount, Int.cast_ofNat]
    norm_num
    simpa using pyRound_intCast 0

/-- C1 counterexample: at base norm b = 1/2 (≥ 0) and discount d = 0 (in [0,100]) the computed norm-with-discount is 0, which differs from b, refuting the claim's "equals b when d = 0" for non-integral base norms. -/
theorem c1_counterexample :
    (0 : ℚ) ≤ 1/2 ∧ ((0:ℤ) ≤ 0 ∧ (0:ℤ) ≤ 100) ∧
    normWithDiscount (1/2) 0 = 0 ∧ ((1:ℚ)/2 ≠ 0) := by
  refine ⟨by norm_num, ⟨le_refl 0, by decide⟩, ?_, by norm_num⟩
  norm_num [normWithDiscount, pyRound]

/-- C1 witness: `c1_amended` applied at the concrete inputs b = 7, d = 50 (and d = 0, d = 100). -/
theorem c1_witness :
    normWithDiscount 7 50 = pyRound (7 * (1 - ((50:ℤ) : ℚ) / 100)) ∧
    normWithDiscount 3 0 = 3 ∧ normWithDiscount 7 100 = 0 :=
  ⟨(c1_amended 7 50 (by norm_num) (by decide) (by decide)).1,
   (c1_amended 3 0 (by norm_num) (by decide) (by decide)).2.1 3 (by norm_num),
   (c1_amended 7 100 (by norm_num) (by decide) (by decide)).2.2⟩

/-- C5 counterexample: `normalize_task_row` on a row without a count-by-norm key outputs count_by_norm = False (Python's bool(None)), not True as the claim states. -/
theorem c5_counterexample :
    rget (normalize_task_row "A3" [] []) "count_by_norm" = some (.bool false) ∧
    PyVal.bool false ≠ PyVal.bool true := by
  constructor
  · simp [normalize_task_row, rget, rset, to_int_safe, truthyOpt, rowItem]
  · decide

/-- C5 (amended): for every raw input row whose count-by-norm flag is absent, `normalize_task_row` outputs a row with count_by_norm = false. -/
theorem c5_amended (line : String) (row : Row) (cat : Catalog)
    (h : rget row "count_by_norm" = Option.none) :
    rget (normalize_task_row line row cat) "count_by_norm" = some (.bool false) := by
  have h2 := (normalize_task_row_fields line row cat).2.2.1
  rw [h] at h2
  simpa [truthyOpt] using h2

/-- C5 witness: `c5_amended` applied to a concrete row without the flag. -/
theorem c5_witness :
    rget (normalize_task_row "A4" [("qty_made", PyVal.int 3)] []) "count_by_norm"
      = some (.bool false) :=
  c5_amended "A4" [("qty_made", PyVal.int 3)] [] rfl

/-- C6 counterexample: a row with discount_percent = 150 is normalized to discount_percent = 150 (not 0, although 150 is out of range), and with catalog base norm 100 the norm-with-discount becomes round(100*(1-150/100)) = -50, computed from the unclamped value. -/
theorem c6_counterexample :
    rget (normalize_task_row "A3"
        [("sap_code", .str "X"), ("discount_percent", .int 150)]
        [("X", ⟨"P", some 100, some 120⟩)]) "discount_percent"
      = some (.int 150) ∧
    rget (normalize_task_row "A3"
        [("sap_code", .str "X"), ("discount_percent", .int 150)]
        [("X", ⟨"P", some 100, some 120⟩)]) "norm_with_discount"
      = some (.int (-50)) ∧
    ¬ ((150:ℤ) ≤ 100) := by
  refine ⟨?_, ?_, by decide⟩
  · simp [normalize_task_row, rget, rset, to_int_safe, truthyOpt, rowItem, lookupCat]
  · simp [normalize_task_row, rget, rset, to_int_safe, truthyOpt, rowItem, lookupCat]
    norm_num [normWithDiscount, pyRound]

/-- C6 (amended): `normalize_task_row` coerces the discount percent with `to_int_safe` (missing, None, NaN, blank and unparseable strings become 0; integer values pass through without being clamped to [0,100]) and computes the norm-with-discount from that coerced value and the resolved base norm. -/
theorem c6_amended (line : String) (row : Row) (cat : Catalog) :
    rget (normalize_task_row line row cat) "discount_percent"
        = some (.int (to_int_safe (rget row "discount_percent") 0)) ∧
    rget (normalize_task_row line row cat) "norm_with_discount"
        = some (.int (normWithDiscount (resolvedBase line row cat)
            (to_int_safe (rget row "discount_percent") 0))) ∧
    to_int_safe Option.none 0 = 0 ∧
    to_int_safe (some PyVal.none) 0 = 0 ∧
    to_int_safe (some PyVal.nan) 0 = 0 ∧
    to_int_safe (some (PyVal.str "  ")) 0 = 0 ∧
    to_int_safe (some (PyVal.str "abc")) 0 = 0 :=
  ⟨(normalize_task_row_fields line row cat).1,
   (normalize_task_row_fields line row cat).2.2.2,
   by decide, by decide, by decide, by decide, by decide⟩

/-- C7 counterexample: a row with qty_made = -5 is normalized to qty_made = -5; the coerced quantity is an integer but not non-negative. -/
theorem c7_counterexample :
    rget (normalize_task_row "A3" [("qty_made", .int (-5))] []) "qty_made"
      = some (.int (-5)) ∧ ¬ ((0:ℤ) ≤ -5) := by
  constructor
  · simp [normalize_task_row, rget, rset, to_int_safe, truthyOpt, rowItem]
  · decide

/-- C7 (amended): `normalize_task_row` coerces the quantity with `to_int_safe`: missing, None, NaN, blank and non-numeric strings become 0, but the sign is preserved, so the result need not be non-negative. -/
theorem c7_amended (line : String) (row : Row) (cat : Catalog) :
    rget (normalize_task_row line row cat) "qty_made"
        = some (.int (to_int_safe (rget row "qty_made") 0)) ∧
    to_int_safe Option.none 0 = 0 ∧
    to_int_safe (some PyVal.none) 0 = 0 ∧
    to_int_safe (some PyVal.nan) 0 = 0 ∧
    to_int_safe (some (PyVal.str " ")) 0 = 0 ∧
    to_int_safe (some (PyVal.str "x7")) 0 = 0 :=
  ⟨(normalize_task_row_fields line row cat).2.1,
   by decide, by decide, by decide, by decide, by decide⟩

/-- C2 counterexample: for a catalog item whose A3 norm is 100, `normalize_task_row` resolves base norm 100.0, while the `get_report` load path computes `ROUND(norm_a3_per_employee * 0.7)::int` = 70 for the same entry; 100 ≠ 70, so the two read paths disagree on the A3 base norm. -/
theorem c2_counterexample :
    rget (normalize_task_row "A3" [("sap_code", .str "X")]
        [("X", ⟨"P1", some 100, some 120⟩)]) "norm_per_employee"
      = some (.float 100) ∧
    get_report 5 10 c2db
      = some ⟨1, [⟨"A3", 1, "X", "P1", some 70, 7, true, 0, some 70⟩], [], []⟩ ∧
    ((100 : ℚ) ≠ 70) := by
  refine ⟨?_, ?_, by norm_num⟩
  · simp [normalize_task_row, rget, rset, rowItem, lookupCat]
  · simp [get_report, c2db, findHeader, List.find?, stableSortBy, stableInsert,
      joinTask, sqlNormPerEmployee, sqlNormWithDiscount, sqlRound]
    norm_num

theorem psContains_eq_isSome (ps : PSummary) (k : String) :
    psContains ps k = (ps.find? (fun e => e.1 = k)).isSome := by
  induction ps with
  | nil => simp [psContains]
  | cons e ps ih =>
      by_cases h : e.1 = k
      · rw [List.find?_cons_of_pos _ (by simp [h])]
        simp [psContains, h]
      · rw [List.find?_cons_of_neg _ (by simp [h])]
        rw [← ih]
        simp [psContains, h]

theorem find?_psModify (ps : PSummary) (k k2 : String) (f : Cells → Cells) :
    (psModify ps k f).find? (fun e => e.1 = k2)
      = (ps.find? (fun e => e.1 = k2)).map
          (fun e => if e.1 = k then (e.1, f e.2) else e) := by
  induction ps with
  | nil => simp [psModify]
  | cons e ps ih =>
      obtain ⟨k1, c⟩ := e
      have hstep : psModify ((k1, c) :: ps) k f
          = (if k1 = k then (k1, f c) else (k1, c)) :: psModify ps k f := rfl
      rw [hstep]
      have hfst : ((if k1 = k then (k1, f c) else (k1, c)) : String × Cells).1 = k1 := by
        by_cases h1 : k1 = k <;> simp [h1]
      by_cases h2 : k1 = k2
      · subst h2
        rw [List.find?_cons_of_pos _ (by simp [hfst]),
           List.find?_cons_of_pos _ (by simp)]
        by_cases h1 : k1 = k <;> simp [h1]
      · rw [List.find?_cons_of_neg _ (by simp [hfst, h2]),
           List.find?_cons_of_neg _ (by simp [h2])]
        exact ih

theorem find?_psEnsure (ps : PSummary) (k k2 : String) :
    (psEnsure ps k).find? (fun e => e.1 = k2)
      = ((ps.find? (fun e => e.1 = k2)).orElse
          (fun _ => if k = k2 then some (k, Cells.zero) else Option.none)) := by
  unfold psEnsure
  by_cases hc : psContains ps k
  · rw [if_pos hc]
    cases hf : ps.find? (fun e => e.1 = k2) with
    | some e => simp
    | none =>
        by_cases hk : k = k2
        · subst hk
          rw [psContains_eq_isSome, hf] at hc
          simp at hc
        · simp [hf, hk]
  · rw [if_neg hc]
    rw [List.find?_append]
    cases hf : ps.find? (fun e => e.1 = k2) with
    | some e => simp [hf]
    | none =>
        by_cases hk : k = k2
        · subst hk
          simp [List.find?]
        · simp [List.find?, hk]

theorem psCells_psEnsure (ps : PSummary) (k k2 : String) :
    psCells (psEnsure ps k) k2 = psCells ps k2 := by
  unfold psCells
  rw [find?_psEnsure]
  cases hf : ps.find? (fun e => e.1 = k2) with
  | some e => simp
  | none => by_cases hk : k = k2 <;> simp [hk, Cells.zero]

theorem psCells_psBump (ps : PSummary) (k k2 : String) (isA3 : Bool) (q : ℚ) :
    psCells (psBump ps k isA3 q) k2
      = if k2 = k then Cells.bump isA3 q (psCells ps k) else psCells ps k2 := by
  unfold psBump psCells
  rw [find?_psModify, find?_psEnsure]
  by_cases hk : k2 = k
  · subst hk
    cases hf : ps.find? (fun e => e.1 = k2) with
    | some e =>
        have he : e.1 = k2 := by simpa using List.find?_some hf
        simp [he]
    | none => simp
  · cases hf : ps.find? (fun e => e.1 = k2) with
    | some e =>
        have he : e.1 = k2 := by simpa using List.find?_some hf
        simp [he, hk, Ne.symm hk]
    | none => simp [hk, Ne.symm hk]

theorem exceptOkBind {A B : Type} (a : A) (f : A → Except String B) :
    (Except.ok a : Except String A) >>= f = f a := rfl

theorem psModify_psModify (ps : PSummary) (k : String) (f g : Cells → Cells) :
    psModify (psModify ps k f) k g = psModify ps k (fun c => g (f c)) := by
  unfold psModify
  rw [List.map_map]
  apply List.map_congr_left
  intro e _
  by_cases h : e.1 = k <;> simp [h]

theorem procTask_wellCounted (h : LineHours) (isA3 : Bool) (ps : PSummary) (t : Row)
    (hw : WellCounted t) :
    procTask h isA3 ps t = .ok (psBump ps (taskKey t) isA3 (taskQtyNum t)) := by
  obtain ⟨hcode, hcbn, q, hq⟩ := hw
  have hqn : taskQtyNum t = q := by simp [taskQtyNum, hq]
  simp only [procTask, hcode, hcbn, hq, psBump, psEnsure, taskKey, hqn,
    Bool.true_eq_false, if_false, ite_false, exceptOkBind]
  rw [psModify_psModify]
  refine congrArg Except.ok (congrArg (psModify _ _) ?_)
  funext c
  cases isA3 <;> simp [Cells.bump]

theorem foldlM_procTask_wellCounted (h : LineHours) (isA3 : Bool) (ts : List Row)
    (hts : ∀ t ∈ ts, WellCounted t) :
    ∀ ps : PSummary, List.foldlM (procTask h isA3) ps ts = .ok (psBumpList isA3 ps ts) := by
  induction ts with
  | nil => intro ps; exact rfl
  | cons t ts ih =>
      intro ps
      rw [List.foldlM_cons, procTask_wellCounted h isA3 ps t (hts t (by simp))]
      have ihx := ih (fun t2 ht2 => hts t2 (by simp [ht2]))
      simp only [psBumpList, List.foldl_cons]
      simpa [psBumpList] using ihx (psBump ps (taskKey t) isA3 (taskQtyNum t))

theorem sumQty_cons (k : String) (t : Row) (ts : List Row) :
    sumQty k (t :: ts) = (if taskKey t = k then taskQtyNum t else 0) + sumQty k ts := by
  by_cases h : taskKey t = k <;> simp [sumQty, h]

theorem psBumpList_true_cells (ts : List Row) :
    ∀ (ps : PSummary) (k : String) (s3 sq3 : ℚ),
      (psCells ps k).a3 = .num s3 → (psCells ps k).qtyA3 = .num sq3 →
      (psCells (psBumpList true ps ts) k).a3 = .num (s3 + sumQty k ts) ∧
      (psCells (psBumpList true ps ts) k).qtyA3 = .num (sq3 + sumQty k ts) ∧
      (psCells (psBumpList true ps ts) k).a4 = (psCells ps k).a4 ∧
      (psCells (psBumpList true ps ts) k).qtyA4 = (psCells ps k).qtyA4 := by
  induction ts with
  | nil => intro ps k s3 sq3 h3 hq3; simp [psBumpList, sumQty, h3, hq3]
  | cons t ts ih =>
      intro ps k s3 sq3 h3 hq3
      have hstep : psBumpList true ps (t :: ts)
          = psBumpList true (psBump ps (taskKey t) true (taskQtyNum t)) ts := rfl
      rw [hstep, sumQty_cons]
      by_cases hk : taskKey t = k
      · rw [if_pos hk]
        have hcell := psCells_psBump ps (taskKey t) k true (taskQtyNum t)
        rw [if_pos hk.symm] at hcell
        rw [hk] at hcell
        have h3n : (psCells (psBump ps k true (taskQtyNum t)) k).a3
            = .num (s3 + taskQtyNum t) := by
          rw [hcell]; simp [Cells.bump, h3, PyFloat.add]
        have hq3n : (psCells (psBump ps k true (taskQtyNum t)) k).qtyA3
            = .num (sq3 + taskQtyNum t) := by
          rw [hcell]; simp [Cells.bump, hq3, PyFloat.add]
        obtain ⟨r1, r2, r3, r4⟩ := ih (psBump ps k true (taskQtyNum t)) k
          (s3 + taskQtyNum t) (sq3 + taskQtyNum t) h3n hq3n
        rw [hk]
        refine ⟨by rw [r1]; congr 1; ring, by rw [r2]; congr 1; ring, ?_, ?_⟩
        · rw [r3, hcell]; simp [Cells.bump]
        · rw [r4, hcell]; simp [Cells.bump]
      · rw [if_neg hk]
        have hcell := psCells_psBump ps (taskKey t) k true (taskQtyNum t)
        rw [if_neg (fun hh => hk hh.symm)] at hcell
        obtain ⟨r1, r2, r3, r4⟩ := ih (psBump ps (taskKey t) true (taskQtyNum t)) k s3 sq3
          (by rw [hcell, h3]) (by rw [hcell, hq3])
        refine ⟨by rw [r1]; congr 1; ring, by rw [r2]; congr 1; ring, ?_, ?_⟩
        · rw [r3, hcell]
        · rw [r4, hcell]

theorem psBumpList_false_cells (ts : List Row) :
    ∀ (ps : PSummary) (k : String) (s4 sq4 : ℚ),
      (psCells ps k).a4 = .num s4 → (psCells ps k).qtyA4 = .num sq4 →
      (psCells (psBumpList false ps ts) k).a4 = .num (s4 + sumQty k ts) ∧
      (psCells (psBumpList false ps ts) k).qtyA4 = .num (sq4 + sumQty k ts) ∧
      (psCells (psBumpList false ps ts) k).a3 = (psCells ps k).a3 ∧
      (psCells (psBumpList false ps ts) k).qtyA3 = (psCells ps k).qtyA3 := by
  induction ts with
  | nil => intro ps k s4 sq4 h4 hq4; simp [psBumpList, sumQty, h4, hq4]
  | cons t ts ih =>
      intro ps k s4 sq4 h4 hq4
      have hstep : psBumpList false ps (t :: ts)
          = psBumpList false (psBump ps (taskKey t) false (taskQtyNum t)) ts := rfl
      rw [hstep, sumQty_cons]
      by_cases hk : taskKey t = k
      · rw [if_pos hk]
        have hcell := psCells_psBump ps (taskKey t) k false (taskQtyNum t)
        rw [if_pos hk.symm] at hcell
        rw [hk] at hcell
        have h4n : (psCells (psBump ps k false (taskQtyNum t)) k).a4
            = .num (s4 + taskQtyNum t) := by
          rw [hcell]; simp [Cells.bump, h4, PyFloat.add]
        have hq4n : (psCells (psBump ps k false (taskQtyNum t)) k).qtyA4
            = .num (sq4 + taskQtyNum t) := by
          rw [hcell]; simp [Cells.bump, hq4, PyFloat.add]
        obtain ⟨r1, r2, r3, r4⟩ := ih (psBump ps k false (taskQtyNum t)) k
          (s4 + taskQtyNum t) (sq4 + taskQtyNum t) h4n hq4n
        rw [hk]
        refine ⟨by rw [r1]; congr 1; ring, by rw [r2]; congr 1; ring, ?_, ?_⟩
        · rw [r3, hcell]; simp [Cells.bump]
        · rw [r4, hcell]; simp [Cells.bump]
      · rw [if_neg hk]
        have hcell := psCells_psBump ps (taskKey t) k false (taskQtyNum t)
        rw [if_neg (fun hh => hk hh.symm)] at hcell
        obtain ⟨r1, r2, r3, r4⟩ := ih (psBump ps (taskKey t) false (taskQtyNum t)) k s4 sq4
          (by rw [hcell, h4]) (by rw [hcell, hq4])
        refine ⟨by rw [r1]; congr 1; ring, by rw [r2]; congr 1; ring, ?_, ?_⟩
        · rw [r3, hcell]
        · rw [r4, hcell]

/-- C3: in `calculate_product_summary`'s accumulation (`productSummaryMap`), every row with a truthy count-by-norm flag (and a truthy product code and numeric quantity) contributes exactly its raw quantity: each group's pre-rounding per-line total equals the sum of the raw quantities of its rows, and the whole accumulated dict is independent of the line-hours argument; discount and norm fields never enter. -/
theorem c3_count_by_norm (tasks_A3 tasks_A4 : List Row) (hrs hrs2 : LineHours)
    (hA3 : ∀ t ∈ tasks_A3, WellCounted t) (hA4 : ∀ t ∈ tasks_A4, WellCounted t) :
    ∃ ps : PSummary,
      productSummaryMap tasks_A3 tasks_A4 hrs = .ok ps ∧
      productSummaryMap tasks_A3 tasks_A4 hrs2 = .ok ps ∧
      ∀ k : String,
        (psCells ps k).a3 = .num (sumQty k tasks_A3) ∧
        (psCells ps k).a4 = .num (sumQty k tasks_A4) ∧
        (psCells ps k).qtyA3 = .num (sumQty k tasks_A3) ∧
        (psCells ps k).qtyA4 = .num (sumQty k tasks_A4) := by
  refine ⟨psBumpList false (psBumpList true [] tasks_A3) tasks_A4, ?_, ?_, ?_⟩
  · unfold productSummaryMap
    rw [foldlM_procTask_wellCounted hrs true tasks_A3 hA3 []]
    rw [exceptOkBind]
    exact foldlM_procTask_wellCounted hrs false tasks_A4 hA4 _
  · unfold productSummaryMap
    rw [foldlM_procTask_wellCounted hrs2 true tasks_A3 hA3 []]
    rw [exceptOkBind]
    exact foldlM_procTask_wellCounted hrs2 false tasks_A4 hA4 _
  · intro k
    have base : psCells ([] : PSummary) k = Cells.zero := rfl
    have hz3 : (psCells ([] : PSummary) k).a3 = .num 0 := by rw [base]; rfl
    have hzq3 : (psCells ([] : PSummary) k).qtyA3 = .num 0 := by rw [base]; rfl
    obtain ⟨p1, p2, p3, p4⟩ := psBumpList_true_cells tasks_A3 [] k 0 0 hz3 hzq3
    have h4 : (psCells (psBumpList true [] tasks_A3) k).a4 = .num 0 := by
      rw [p3, base]; rfl
    have hq4 : (psCells (psBumpList true [] tasks_A3) k).qtyA4 = .num 0 := by
      rw [p4, base]; rfl
    obtain ⟨r1, r2, r3, r4⟩ := psBumpList_false_cells tasks_A4
      (psBumpList true [] tasks_A3) k 0 0 h4 hq4
    refine ⟨?_, ?_, ?_, ?_⟩
    · rw [r3, p1]; congr 1; ring
    · rw [r1]; congr 1; ring
    · rw [r4, p2]; congr 1; ring
    · rw [r2]; congr 1; ring

/-- C3 witness: `c3_count_by_norm` applied to one concrete count-by-norm task, showing the accumulated summary is the same for line hours (16,0) and (99,5). -/
theorem c3_witness :
    productSummaryMap
        [[("sap_code", PyVal.str "X"), ("product_name", PyVal.str "P"),
          ("count_by_norm", PyVal.bool true), ("qty_made", PyVal.int 7),
          ("discount_percent", PyVal.int 30), ("norm_with_discount", PyVal.int 70)]]
        [] ⟨16, 0⟩
      = productSummaryMap
        [[("sap_code", PyVal.str "X"), ("product_name", PyVal.str "P"),
          ("count_by_norm", PyVal.bool true), ("qty_made", PyVal.int 7),
          ("discount_percent", PyVal.int 30), ("norm_with_discount", PyVal.int 70)]]
        [] ⟨99, 5⟩ := by
  have hw : ∀ t ∈ [[("sap_code", PyVal.str "X"), ("product_name", PyVal.str "P"),
      ("count_by_norm", PyVal.bool true), ("qty_made", PyVal.int 7),
      ("discount_percent", PyVal.int 30), ("norm_with_discount", PyVal.int 70)]],
      WellCounted t := by
    intro t ht
    simp only [List.mem_singleton] at ht
    subst ht
    exact ⟨by decide, by decide, 7, rfl⟩
  obtain ⟨ps, e1, e2, _⟩ := c3_count_by_norm _ [] ⟨16, 0⟩ ⟨99, 5⟩ hw (by simp)
  rw [e1, e2]

theorem lineStatsStep_unknown (acc : LineAcc) (emp : Row) (v : PyVal)
    (hline : rget emp "line" = some v)
    (h3 : v ≠ .str "A3") (h4 : v ≠ .str "A4") :
    lineStatsStep acc emp = .ok acc := by
  simp [lineStatsStep, hline, h3, h4]

theorem exceptBindOkId {A : Type} (m : Except String A) :
    (m >>= fun a => Except.ok a) = m := by
  cases m <;> rfl

/-- C4 (amended): an assignment whose line key is present with a value other than "A3"/"A4" (including None) is excluded from both the per-line counts and the per-line hour totals without raising an error; a row missing the line key entirely instead defaults to line A3. -/
theorem c4_amended (emps : List Row) (emp : Row) (v : PyVal)
    (hline : rget emp "line" = some v)
    (h3 : v ≠ .str "A3") (h4 : v ≠ .str "A4") :
    calculate_line_statistics (emps ++ [emp]) = calculate_line_statistics emps := by
  unfold calculate_line_statistics
  rw [List.foldlM_append]
  have hsing : ∀ a : LineAcc, List.foldlM lineStatsStep a [emp] = Except.ok a := by
    intro a
    rw [List.foldlM_cons, lineStatsStep_unknown a emp v hline h3 h4, exceptOkBind]
    rfl
  simp only [hsing, exceptBindOkId]

/-- C4 counterexample: an assignment row with no line key at all is NOT dropped by `calculate_line_statistics`: it is counted under A3 (the `.get` default), so the claim fails for missing line values. -/
theorem c4_counterexample :
    calculate_line_statistics [[]]
      = .ok ⟨1, 0, .num 0, .num 0, 1, .num 0⟩ ∧ (1 : ℤ) ≠ 0 := by
  constructor
  · simp [calculate_line_statistics, List.foldlM, lineStatsStep, rget, pyFloatFn,
      PyFloat.add, exceptOkBind]
  · decide

/-- C4 witness: `c4_amended` applied to a concrete list plus one assignment with unknown line "B9". -/
theorem c4_witness :
    calculate_line_statistics
        ([[("line", PyVal.str "A3"), ("work_time", PyVal.float 5)]] ++
          [[("line", PyVal.str "B9"), ("work_time", PyVal.float 2)]])
      = calculate_line_statistics [[("line", PyVal.str "A3"), ("work_time", PyVal.float 5)]] :=
  c4_amended [[("line", PyVal.str "A3"), ("work_time", PyVal.float 5)]]
    [("line", PyVal.str "B9"), ("work_time", PyVal.float 2)]
    (PyVal.str "B9") rfl (by decide) (by decide)

/-- C8 counterexample: `calculate_line_statistics` raises (returns an error) on an assignment whose work_time is the non-numeric string "abc", because the code calls float(work_time) without safe coercion; so normalization/aggregation is not exception-free for every input. -/
theorem c8_counterexample :
    isOkE (calculate_line_statistics
      [[("line", PyVal.str "A3"), ("work_time", PyVal.str "abc")]]) = false := by
  decide

theorem exists_ok_of_isOkE {A : Type} (m : Except String A) (h : isOkE m = true) :
    ∃ a, m = .ok a := by
  cases m with
  | ok a => exact ⟨a, rfl⟩
  | error e => simp [isOkE] at h

theorem lineStatsStep_ok (acc : LineAcc) (emp : Row)
    (hsafe : NotStrField (rget emp "work_time")) :
    isOkE (lineStatsStep acc emp) = true := by
  unfold lineStatsStep
  cases hwt : rget emp "work_time" with
  | none =>
      by_cases h3 : (rget emp "line").getD (.str "A3") = .str "A3" <;>
        by_cases h4 : (rget emp "line").getD (.str "A3") = .str "A4" <;>
          simp [h3, h4, hwt, pyFloatFn, isOkE, exceptOkBind]
  | some v =>
      rw [hwt] at hsafe
      cases v
      case str s => exact absurd hsafe (by simp [NotStrField])
      all_goals
        by_cases h3 : (rget emp "line").getD (.str "A3") = .str "A3" <;>
          by_cases h4 : (rget emp "line").getD (.str "A3") = .str "A4" <;>
            simp [h3, h4, hwt, pyFloatFn, isOkE, exceptOkBind]

theorem foldlM_ok_of_step {A B : Type} (f : A → B → Except String A) (l : List B)
    (h : ∀ (a : A) (b : B), b ∈ l → ∃ a2, f a b = .ok a2) :
    ∀ a, ∃ a2, List.foldlM f a l = .ok a2 := by
  induction l with
  | nil => intro a; exact ⟨a, rfl⟩
  | cons b l ih =>
      intro a
      obtain ⟨a2, ha2⟩ := h a b (by simp)
      rw [List.foldlM_cons, ha2, exceptOkBind]
      exact ih (fun a3 b2 hb2 => h a3 b2 (by simp [hb2])) a2

theorem pyNum_safe (o : Option PyVal) (h : SafeNumField o) :
    ∃ q : ℚ, pyNum (o.getD (.int 0)) = .ok (.num q) := by
  cases o with
  | none => exact ⟨0, rfl⟩
  | some v =>
      cases v
      case str s => exact absurd h (by simp [SafeNumField])
      case none => exact absurd h (by simp [SafeNumField])
      case nan => exact absurd h (by simp [SafeNumField])
      case int n => exact ⟨n, rfl⟩
      case float q => exact ⟨q, rfl⟩
      case bool b => exact ⟨if b then 1 else 0, by cases b <;> rfl⟩

theorem cellsNum_zero : CellsNum Cells.zero :=
  ⟨⟨0, rfl⟩, ⟨0, rfl⟩, ⟨0, rfl⟩, ⟨0, rfl⟩⟩

theorem psEnsure_inv (ps : PSummary) (k : String)
    (h : ∀ e ∈ ps, CellsNum e.2) : ∀ e ∈ psEnsure ps k, CellsNum e.2 := by
  intro e he
  unfold psEnsure at he
  by_cases hc : psContains ps k
  · rw [if_pos hc] at he; exact h e he
  · rw [if_neg hc] at he
    rcases List.mem_append.mp he with h1 | h2
    · exact h e h1
    · simp at h2; subst h2; exact cellsNum_zero

theorem psModify_inv (ps : PSummary) (k : String) (f : Cells → Cells)
    (hf : ∀ c, CellsNum c → CellsNum (f c))
    (h : ∀ e ∈ ps, CellsNum e.2) : ∀ e ∈ psModify ps k f, CellsNum e.2 := by
  intro e he
  unfold psModify at he
  obtain ⟨e0, he0, heq⟩ := List.mem_map.mp he
  by_cases hk : e0.1 = k
  · rw [if_pos hk] at heq; subst heq; exact hf e0.2 (h e0 he0)
  · rw [if_neg hk] at heq; subst heq; exact h e0 he0

theorem procTask_ok (hrs : LineHours) (isA3 : Bool) (ps : PSummary) (t : Row)
    (hsafe1 : SafeNumField (rget t "norm_with_discount"))
    (hsafe2 : SafeNumField (rget t "qty_made"))
    (hinv : ∀ e ∈ ps, CellsNum e.2) :
    ∃ ps2, procTask hrs isA3 ps t = .ok ps2 ∧ ∀ e ∈ ps2, CellsNum e.2 := by
  unfold procTask
  by_cases hcode : pyTruthy ((rget t "sap_code").getD (.str "")) = false
  · rw [if_pos hcode]
    exact ⟨ps, rfl, hinv⟩
  · rw [if_neg hcode]
    obtain ⟨qn, hqn⟩ := pyNum_safe _ hsafe1
    obtain ⟨qq, hqq⟩ := pyNum_safe _ hsafe2
    have hnwd : pyNum ((rget t "norm_with_discount").getD (.int 0)) = .ok (.num qn) := hqn
    have hqty : pyNum ((rget t "qty_made").getD (.int 0)) = .ok (.num qq) := hqq
    have hens := psEnsure_inv ps
      (pyStr ((rget t "sap_code").getD (.str "")) ++ " - " ++
        pyStr ((rget t "product_name").getD (.str ""))) hinv
    by_cases hcbn : pyTruthy ((rget t "count_by_norm").getD (.bool true)) = false
    · rw [if_pos hcbn]
      by_cases hh : (if isA3 then hrs.a3 else hrs.a4) > 0
      · rw [if_pos hh, hnwd]
        simp only [hqty, exceptOkBind]
        refine ⟨_, rfl, ?_⟩
        apply psModify_inv _ _ _ ?_ (psModify_inv _ _ _ ?_ hens)
        · intro c hc
          obtain ⟨⟨x3, h3⟩, ⟨x4, h4⟩, ⟨y3, hy3⟩, ⟨y4, hy4⟩⟩ := hc
          cases isA3 <;>
            exact ⟨by simp [h3, PyFloat.add], by simp [h4, PyFloat.add],
                   by simp [hy3, PyFloat.add, hqty], by simp [hy4, PyFloat.add]⟩
        · intro c hc
          obtain ⟨⟨x3, h3⟩, ⟨x4, h4⟩, ⟨y3, hy3⟩, ⟨y4, hy4⟩⟩ := hc
          cases isA3 <;>
            exact ⟨by simp [h3, PyFloat.add, PyFloat.mul, PyFloat.divC],
                   by simp [h4, PyFloat.add, PyFloat.mul, PyFloat.divC],
                   by simp [hy3], by simp [hy4]⟩
      · rw [if_neg hh]
        simp only [hqty, exceptOkBind]
        refine ⟨_, rfl, ?_⟩
        apply psModify_inv _ _ _ ?_ hens
        intro c hc
        obtain ⟨⟨x3, h3⟩, ⟨x4, h4⟩, ⟨y3, hy3⟩, ⟨y4, hy4⟩⟩ := hc
        cases isA3 <;>
          exact ⟨⟨x3, h3⟩, ⟨x4, h4⟩, by simp [hy3, PyFloat.add], by simp [hy4, PyFloat.add]⟩
    · rw [if_neg hcbn]
      simp only [hqty, exceptOkBind]
      refine ⟨_, rfl, ?_⟩
      apply psModify_inv _ _ _ ?_ (psModify_inv _ _ _ ?_ hens)
      · intro c hc
        obtain ⟨⟨x3, h3⟩, ⟨x4, h4⟩, ⟨y3, hy3⟩, ⟨y4, hy4⟩⟩ := hc
        cases isA3 <;>
          exact ⟨⟨x3, h3⟩, ⟨x4, h4⟩, by simp [hy3, PyFloat.add], by simp [hy4, PyFloat.add]⟩
      · intro c hc
        obtain ⟨⟨x3, h3⟩, ⟨x4, h4⟩, ⟨y3, hy3⟩, ⟨y4, hy4⟩⟩ := hc
        cases isA3 <;>
          exact ⟨by simp [h3, PyFloat.add], by simp [h4, PyFloat.add],
                 by simp [hy3], by simp [hy4]⟩

theorem renderSummaryRow_ok (e : String × Cells) (h : CellsNum e.2) :
    ∃ r, renderSummaryRow e = .ok r := by
  obtain ⟨⟨x3, h3⟩, ⟨x4, h4⟩, ⟨y3, hy3⟩, ⟨y4, hy4⟩⟩ := h
  refine ⟨⟨e.1, pyRound x3, pyRound x4, pyRound (x3 + x4),
    ratTrunc y3, ratTrunc y4, ratTrunc (y3 + y4)⟩, ?_⟩
  simp [renderSummaryRow, h3, h4, hy3, hy4, pfRound, pfTrunc, PyFloat.add, exceptOkBind]

theorem mapM_ok {A B : Type} (f : A → Except String B) (l : List A)
    (h : ∀ x ∈ l, ∃ y, f x = .ok y) : ∃ ys, l.mapM f = .ok ys := by
  induction l with
  | nil => exact ⟨[], rfl⟩
  | cons x l ih =>
      obtain ⟨y, hy⟩ := h x (by simp)
      obtain ⟨ys, hys⟩ := ih (fun x2 hx2 => h x2 (by simp [hx2]))
      refine ⟨y :: ys, ?_⟩
      rw [List.mapM_cons, hy]
      simp only [exceptOkBind, hys]
      rfl

theorem foldlM_procTask_ok (hrs : LineHours) (isA3 : Bool) (ts : List Row)
    (hts : ∀ t ∈ ts,
      SafeNumField (rget t "norm_with_discount") ∧ SafeNumField (rget t "qty_made")) :
    ∀ ps, (∀ e ∈ ps, CellsNum e.2) →
      ∃ ps2, List.foldlM (procTask hrs isA3) ps ts = .ok ps2 ∧
        ∀ e ∈ ps2, CellsNum e.2 := by
  induction ts with
  | nil => intro ps hinv; exact ⟨ps, rfl, hinv⟩
  | cons t ts ih =>
      intro ps hinv
      obtain ⟨ps1, hps1, hinv1⟩ := procTask_ok hrs isA3 ps t
        (hts t (by simp)).1 (hts t (by simp)).2 hinv
      rw [List.foldlM_cons, hps1, exceptOkBind]
      exact ih (fun t2 ht2 => hts t2 (by simp [ht2])) ps1 hinv1

/-- C8 (amended): `normalize_task_row` is total by construction; `calculate_line_statistics` returns a result whenever no work_time field holds a string, and `calculate_product_summary` returns a result whenever every norm_with_discount and qty_made field is absent or holds an int, a finite float or a bool; only malformed (string) or NaN numeric fields can make the aggregations fail. -/
theorem c8_amended (emps tasks_A3 tasks_A4 : List Row) (hrs : LineHours)
    (hemps : ∀ e ∈ emps, NotStrField (rget e "work_time"))
    (htasks : ∀ t ∈ tasks_A3 ++ tasks_A4,
      SafeNumField (rget t "norm_with_discount") ∧ SafeNumField (rget t "qty_made")) :
    (∃ st, calculate_line_statistics emps = .ok st) ∧
    (∃ rows, calculate_product_summary tasks_A3 tasks_A4 hrs = .ok rows) := by
  constructor
  · obtain ⟨acc, hacc⟩ := foldlM_ok_of_step lineStatsStep emps
      (fun a b hb => exists_ok_of_isOkE _ (lineStatsStep_ok a b (hemps b hb)))
      ⟨0, 0, .num 0, .num 0⟩
    unfold calculate_line_statistics
    rw [hacc]
    exact ⟨_, rfl⟩
  · obtain ⟨ps1, h1, hinv1⟩ := foldlM_procTask_ok hrs true tasks_A3
      (fun t ht => htasks t (List.mem_append_left _ ht)) [] (by simp)
    obtain ⟨ps2, h2, hinv2⟩ := foldlM_procTask_ok hrs false tasks_A4
      (fun t ht => htasks t (List.mem_append_right _ ht)) ps1 hinv1
    obtain ⟨rows, hrows⟩ := mapM_ok renderSummaryRow ps2
      (fun e he => renderSummaryRow_ok e (hinv2 e he))
    unfold calculate_product_summary productSummaryMap
    simp only [h1, h2, hrows, exceptOkBind]
    exact ⟨rows, rfl⟩

/-- C8 witness: `c8_amended` applied to one concrete assignment and one concrete task with numeric fields. -/
theorem c8_witness :
    isOkE (calculate_line_statistics [[("line", PyVal.str "A3"), ("work_time", PyVal.float 8)]])
        = true ∧
    isOkE (calculate_product_summary
        [[("sap_code", PyVal.str "X"), ("count_by_norm", PyVal.bool false),
          ("norm_with_discount", PyVal.int 70)]] [] ⟨16, 0⟩) = true := by
  obtain ⟨⟨st, hst⟩, ⟨rows, hrows⟩⟩ := c8_amended
    [[("line", PyVal.str "A3"), ("work_time", PyVal.float 8)]]
    [[("sap_code", PyVal.str "X"), ("count_by_norm", PyVal.bool false),
      ("norm_with_discount", PyVal.int 70)]] [] ⟨16, 0⟩
    (by intro e he; simp only [List.mem_singleton] at he; subst he
        simp [rget, NotStrField])
    (by intro t ht; simp only [List.append_nil, List.mem_singleton] at ht; subst ht
        constructor <;> simp [rget, SafeNumField])
  rw [hst, hrows]
  exact ⟨rfl, rfl⟩

theorem exceptErrorBind {A B : Type} (msg : String) (f : A → Except String B) :
    (Except.error msg : Except String A) >>= f = Except.error msg := rfl

/-- C9: validation accepts a task record iff its line is A3 or A4 and its discount percent is None (becoming 0) or within [0,100]; accepts a line-employee record iff its line is A3 or A4; accepts a support-role record iff its role is senior or repair; in all other cases it returns a validation error rather than coercing. -/
theorem c9_validation (t : TaskInput) (e : LineEmpRec) (s : SupportRec) :
    (isOkE (validateTask t) = true ↔
      ((t.line = "A3" ∨ t.line = "A4") ∧
        (∀ n, t.discount_percent = some n → 0 ≤ n ∧ n ≤ 100))) ∧
    (isOkE (validateLineEmployee e) = true ↔ (e.line = "A3" ∨ e.line = "A4")) ∧
    (isOkE (validateSupportRole s) = true ↔ (s.role = "senior" ∨ s.role = "repair")) := by
  refine ⟨?_, ?_, ?_⟩
  · unfold validateTask v_line v_discount
    by_cases hl : t.line ≠ "A3" ∧ t.line ≠ "A4"
    · rw [if_pos hl]
      refine iff_of_false (by simp [exceptErrorBind, isOkE]) ?_
      rintro ⟨h, _⟩
      rcases h with h | h
      · exact hl.1 h
      · exact hl.2 h
    · rw [if_neg hl]
      push_neg at hl
      have hline : t.line = "A3" ∨ t.line = "A4" := by
        by_cases h3 : t.line = "A3"
        · exact Or.inl h3
        · exact Or.inr (hl h3)
      simp only [exceptOkBind]
      cases hd : t.discount_percent with
      | none =>
          refine iff_of_true (by simp [exceptOkBind, isOkE]) ?_
          exact ⟨hline, fun n hn => Option.noConfusion hn⟩
      | some n =>
          by_cases hr : 0 ≤ n ∧ n ≤ 100
          · refine iff_of_true (by simp [exceptOkBind, isOkE, hr]) ?_
            refine ⟨hline, fun m hm => ?_⟩
            injection hm with hnm
            subst hnm
            exact hr
          · refine iff_of_false (by simp [exceptErrorBind, isOkE, hr]) ?_
            rintro ⟨_, hall⟩
            exact hr (hall n rfl)
  · unfold validateLineEmployee v_line
    by_cases hl : e.line ≠ "A3" ∧ e.line ≠ "A4"
    · rw [if_pos hl]
      refine iff_of_false (by simp [exceptErrorBind, isOkE]) ?_
      rintro (h | h)
      · exact hl.1 h
      · exact hl.2 h
    · rw [if_neg hl]
      push_neg at hl
      refine iff_of_true (by simp [exceptOkBind, isOkE]) ?_
      by_cases h3 : e.line = "A3"
      · exact Or.inl h3
      · exact Or.inr (hl h3)
  · unfold validateSupportRole v_role
    by_cases hl : s.role ≠ "senior" ∧ s.role ≠ "repair"
    · rw [if_pos hl]
      refine iff_of_false (by simp [exceptErrorBind, isOkE]) ?_
      rintro (h | h)
      · exact hl.1 h
      · exact hl.2 h
    · rw [if_neg hl]
      push_neg at hl
      refine iff_of_true (by simp [exceptOkBind, isOkE]) ?_
      by_cases h3 : s.role = "senior"
      · exact Or.inl h3
      · exact Or.inr (hl h3)

theorem setReportDate_idem (l : List ReportHeader) (rid : ℕ) (d : ℤ) :
    setReportDate (setReportDate l rid d) rid d = setReportDate l rid d := by
  unfold setReportDate
  rw [List.map_map]
  apply List.map_congr_left
  intro g _
  by_cases h : g.id = rid <;> simp [h]

theorem findHeader_setReportDate (l : List ReportHeader) (site d : ℤ) (rid : ℕ)
    (h0 : ReportHeader) (hf : findHeader l site d = some h0) (hid : h0.id = rid) :
    ∃ h2, findHeader (setReportDate l rid d) site d = some h2 ∧ h2.id = rid := by
  induction l with
  | nil => simp [findHeader] at hf
  | cons g l ih =>
      have hmap : setReportDate (g :: l) rid d
          = (if g.id = rid then { g with report_date := d } else g) ::
              setReportDate l rid d := rfl
      by_cases hg : (g.site_id == site && g.report_date == d) = true
      · have hg0 : g = h0 := by
          unfold findHeader at hf
          rw [@List.find?_cons_of_pos _
            (fun h : ReportHeader => h.site_id == site && h.report_date == d) g l hg] at hf
          exact Option.some_inj.mp hf
        have hgid : g.id = rid := by rw [hg0]; exact hid
        have hsd : g.site_id = site ∧ g.report_date = d := by
          simpa [beq_iff_eq] using hg
        rw [hmap, if_pos hgid]
        refine ⟨{ g with report_date := d }, ?_, by simp [hgid]⟩
        exact @List.find?_cons_of_pos _
          (fun h : ReportHeader => h.site_id == site && h.report_date == d) _ _ (by simp [hsd.1])
      · have hfl : findHeader l site d = some h0 := by
          unfold findHeader at hf ⊢
          rw [@List.find?_cons_of_neg _
            (fun h : ReportHeader => h.site_id == site && h.report_date == d) g l hg] at hf
          exact hf
        obtain ⟨h2, hf2, hid2⟩ := ih hfl
        rw [hmap]
        by_cases hgid : g.id = rid
        · rw [if_pos hgid]
          by_cases hsite : g.site_id = site
          · refine ⟨{ g with report_date := d }, ?_, by simp [hgid]⟩
            exact @List.find?_cons_of_pos _
              (fun h : ReportHeader => h.site_id == site && h.report_date == d) _ _ (by simp [hsite])
          · refine ⟨h2, ?_, hid2⟩
            unfold findHeader
            rw [@List.find?_cons_of_neg _
              (fun h : ReportHeader => h.site_id == site && h.report_date == d) _ _ (by simp [hsite])]
            exact hf2
        · rw [if_neg hgid]
          refine ⟨h2, ?_, hid2⟩
          unfold findHeader
          rw [@List.find?_cons_of_neg _
            (fun h : ReportHeader => h.site_id == site && h.report_date == d) g _ hg]
          exact hf2

theorem findHeader_append_new (l : List ReportHeader) (site d : ℤ) (x : ReportHeader)
    (hf : findHeader l site d = Option.none)
    (hx : x.site_id = site ∧ x.report_date = d) :
    findHeader (l ++ [x]) site d = some x := by
  unfold findHeader at hf ⊢
  rw [List.find?_append, hf]
  rw [@List.find?_cons_of_pos _
    (fun h : ReportHeader => h.site_id == site && h.report_date == d) x [] (by simp [hx.1, hx.2])]
  rfl

theorem setReportDate_append_bounded (l : List ReportHeader) (nid : ℕ) (site d : ℤ)
    (hb : ∀ g ∈ l, g.id < nid) :
    setReportDate (l ++ [⟨nid, site, d⟩]) nid d = l ++ [⟨nid, site, d⟩] := by
  unfold setReportDate
  rw [List.map_append]
  congr 1
  · calc l.map (fun h => if h.id = nid then { h with report_date := d } else h)
        = l.map id := List.map_congr_left
          (fun g hg => by rw [if_neg (Nat.ne_of_lt (hb g hg))]; rfl)
      _ = l := List.map_id l
  · simp

theorem get_report_congr (site d : ℤ) (db1 db2 : DB)
    (h1 : db1.reports = db2.reports) (h2 : db1.report_tasks = db2.report_tasks)
    (h3 : db1.report_line_employees = db2.report_line_employees)
    (h4 : db1.report_support_roles = db2.report_support_roles)
    (h5 : db1.sap_catalog = db2.sap_catalog) :
    get_report site d db1 = get_report site d db2 := by
  unfold get_report findHeader
  rw [h1, h2, h3, h4, h5]

theorem filter_append_new {A : Type} (l : List (ℕ × A)) (rid : ℕ) (new : List A) :
    ((l.filter (fun e => e.1 ≠ rid) ++ new.map (fun a => (rid, a))).filter
        (fun e => e.1 ≠ rid)) ++ new.map (fun a => (rid, a))
      = l.filter (fun e => e.1 ≠ rid) ++ new.map (fun a => (rid, a)) := by
  rw [List.filter_append]
  have h1 : (l.filter (fun e => e.1 ≠ rid)).filter (fun e => e.1 ≠ rid)
      = l.filter (fun e => e.1 ≠ rid) := by
    apply List.filter_eq_self.mpr
    intro e he
    exact (List.mem_filter.mp he).2
  have h2 : (new.map (fun a => (rid, a))).filter (fun e => e.1 ≠ rid) = [] := by
    apply List.filter_eq_nil.mpr
    intro e he
    obtain ⟨a, _, heq⟩ := List.mem_map.mp he
    subst heq
    simp
  rw [h1, h2, List.append_nil]

/-- C10: for every (site, date), fixed tasks/assignments/supports, and store whose report ids are bounded by the next-id counter, saving twice with identical inputs and then loading gives the same result as saving once and loading (`upsert_report` header upsert keeps the same report id, and the delete-then-insert of children is idempotent). -/
theorem c10_idempotent (site d : ℤ) (tasks : List TaskRec) (les : List LineEmpRec)
    (sups : List SupportRec) (db : DB)
    (hwf : ∀ g ∈ db.reports, g.id < db.next_report_id) :
    get_report site d
        (upsert_report site d tasks les sups (upsert_report site d tasks les sups db))
      = get_report site d (upsert_report site d tasks les sups db) := by
  set u1 := upsert_report site d tasks les sups db with hu1
  cases hf : findHeader db.reports site d with
  | some h =>
      have e1 : u1.reports = setReportDate db.reports h.id d := by
        rw [hu1]; simp only [upsert_report, hf]
      have e2 : u1.report_tasks
          = db.report_tasks.filter (fun e => e.1 ≠ h.id) ++
              tasks.map (fun t => (h.id, t)) := by
        rw [hu1]; simp only [upsert_report, hf]
      have e3 : u1.report_line_employees
          = db.report_line_employees.filter (fun e => e.1 ≠ h.id) ++
              les.map (fun le => (h.id, le)) := by
        rw [hu1]; simp only [upsert_report, hf]
      have e4 : u1.report_support_roles
          = db.report_support_roles.filter (fun e => e.1 ≠ h.id) ++
              sups.map (fun s => (h.id, s)) := by
        rw [hu1]; simp only [upsert_report, hf]
      have e5 : u1.sap_catalog = db.sap_catalog := by
        rw [hu1]; simp only [upsert_report, hf]
      obtain ⟨h2, hf2, hid2⟩ := findHeader_setReportDate db.reports site d h.id h hf rfl
      have hf2u : findHeader u1.reports site d = some h2 := by rw [e1]; exact hf2
      have f1 : (upsert_report site d tasks les sups u1).reports
          = setReportDate u1.reports h2.id d := by
        simp only [upsert_report, hf2u]
      have f2 : (upsert_report site d tasks les sups u1).report_tasks
          = u1.report_tasks.filter (fun e => e.1 ≠ h2.id) ++
              tasks.map (fun t => (h2.id, t)) := by
        simp only [upsert_report, hf2u]
      have f3 : (upsert_report site d tasks les sups u1).report_line_employees
          = u1.report_line_employees.filter (fun e => e.1 ≠ h2.id) ++
              les.map (fun le => (h2.id, le)) := by
        simp only [upsert_report, hf2u]
      have f4 : (upsert_report site d tasks les sups u1).report_support_roles
          = u1.report_support_roles.filter (fun e => e.1 ≠ h2.id) ++
              sups.map (fun s => (h2.id, s)) := by
        simp only [upsert_report, hf2u]
      have f5 : (upsert_report site d tasks les sups u1).sap_catalog = u1.sap_catalog := by
        simp only [upsert_report, hf2u]
      apply get_report_congr
      · rw [f1, hid2, e1, setReportDate_idem]
      · rw [f2, hid2, e2]
        exact filter_append_new db.report_tasks h.id tasks
      · rw [f3, hid2, e3]
        exact filter_append_new db.report_line_employees h.id les
      · rw [f4, hid2, e4]
        exact filter_append_new db.report_support_roles h.id sups
      · rw [f5]
  | none =>
      have e1 : u1.reports = db.reports ++ [⟨db.next_report_id, site, d⟩] := by
        rw [hu1]; simp only [upsert_report, hf]
      have e2 : u1.report_tasks
          = db.report_tasks.filter (fun e => e.1 ≠ db.next_report_id) ++
              tasks.map (fun t => (db.next_report_id, t)) := by
        rw [hu1]; simp only [upsert_report, hf]
      have e3 : u1.report_line_employees
          = db.report_line_employees.filter (fun e => e.1 ≠ db.next_report_id) ++
              les.map (fun le => (db.next_report_id, le)) := by
        rw [hu1]; simp only [upsert_report, hf]
      have e4 : u1.report_support_roles
          = db.report_support_roles.filter (fun e => e.1 ≠ db.next_report_id) ++
              sups.map (fun s => (db.next_report_id, s)) := by
        rw [hu1]; simp only [upsert_report, hf]
      have e5 : u1.sap_catalog = db.sap_catalog := by
        rw [hu1]; simp only [upsert_report, hf]
      have hf2u : findHeader u1.reports site d
          = some ⟨db.next_report_id, site, d⟩ := by
        rw [e1]
        exact findHeader_append_new db.reports site d _ hf ⟨rfl, rfl⟩
      have f1 : (upsert_report site d tasks les sups u1).reports
          = setReportDate u1.reports db.next_report_id d := by
        simp only [upsert_report, hf2u]
      have f2 : (upsert_report site d tasks les sups u1).report_tasks
          = u1.report_tasks.filter (fun e => e.1 ≠ db.next_report_id) ++
              tasks.map (fun t => (db.next_report_id, t)) := by
        simp only [upsert_report, hf2u]
      have f3 : (upsert_report site d tasks les sups u1).report_line_employees
          = u1.report_line_employees.filter (fun e => e.1 ≠ db.next_report_id) ++
              les.map (fun le => (db.next_report_id, le)) := by
        simp only [upsert_report, hf2u]
      have f4 : (upsert_report site d tasks les sups u1).report_support_roles
          = u1.report_support_roles.filter (fun e => e.1 ≠ db.next_report_id) ++
              sups.map (fun s => (db.next_report_id, s)) := by
        simp only [upsert_report, hf2u]
      have f5 : (upsert_report site d tasks les sups u1).sap_catalog = u1.sap_catalog := by
        simp only [upsert_report, hf2u]
      apply get_report_congr
      · rw [f1, e1, setReportDate_append_bounded db.reports db.next_report_id site d hwf]
      · rw [f2, e2]
        exact filter_append_new db.report_tasks db.next_report_id tasks
      · rw [f3, e3]
        exact filter_append_new db.report_line_employees db.next_report_id les
      · rw [f4, e4]
        exact filter_append_new db.report_support_roles db.next_report_id sups
      · rw [f5]

/-- C2 (amended): `normalize_task_row` resolves line A3's base norm as the catalog's `norm_a3_per_employee` value n taken directly, whereas `get_report` resolves round(n * 0.7); the two norm resolutions agree exactly when n = round(0.7·n) (e.g. n = 0), not in general. -/
theorem c2_amended (n : ℚ) (pn : String) (na4 : Option ℚ) :
    rget (normalize_task_row "A3" [("sap_code", .str "X")]
        [("X", ⟨pn, some n, na4⟩)]) "norm_per_employee" = some (.float n) ∧
    sqlNormPerEmployee "A3" ⟨1, "X", pn, some n, na4⟩
        = some ((sqlRound (n * (7/10)) : ℤ) : ℚ) ∧
    (sqlNormPerEmployee "A3" ⟨1, "X", pn, some n, na4⟩ = some n ↔
      ((sqlRound (n * (7/10)) : ℤ) : ℚ) = n) := by
  refine ⟨?_, ?_, ?_⟩
  · simp [normalize_task_row, rget, rset, rowItem, lookupCat]
  · simp [sqlNormPerEmployee]
  · simp [sqlNormPerEmployee]

/-- C10 witness: `c10_idempotent` applied to an initially empty store with one concrete task, line employee and support row. -/
theorem c10_witness :
    get_report 5 10
        (upsert_report 5 10 [⟨"A3", 1, 7, true, 0⟩] [⟨2, "II", 8, "A3"⟩]
          [⟨"senior", 3, "SS", 4⟩]
          (upsert_report 5 10 [⟨"A3", 1, 7, true, 0⟩] [⟨2, "II", 8, "A3"⟩]
            [⟨"senior", 3, "SS", 4⟩]
            ⟨[], [], [], [], [], [⟨1, "X", "P1", some 100, some 120⟩], 1⟩))
      = get_report 5 10
          (upsert_report 5 10 [⟨"A3", 1, 7, true, 0⟩] [⟨2, "II", 8, "A3"⟩]
            [⟨"senior", 3, "SS", 4⟩]
            ⟨[], [], [], [], [], [⟨1, "X", "P1", some 100, some 120⟩], 1⟩) :=
  c10_idempotent 5 10 [⟨"A3", 1, 7, true, 0⟩] [⟨2, "II", 8, "A3"⟩]
    [⟨"senior", 3, "SS", 4⟩]
    ⟨[], [], [], [], [], [⟨1, "X", "P1", some 100, some 120⟩], 1⟩
    (by intro g hg; simp at hg)
